import Mathlib

/-!
Verification of the ulog logging facility.

The embedding follows the C sources: `ulog.h` (severity enum, the
`ULOG_LEVEL_LOCAL` compile-time ceiling gate), `ulog_buffers.c` (the three
buffer dump formatters), `ulog_freertos.c` and `ulog_noos.c` (platform
shims and timestamps), `ulog_cfg.h` (configuration constants).  The core
translation unit `ulog.c` (level registry, sink registry, `ulog_write`) is
not present in the tree — only its header `ulog.h` declares it — so those
operations are modelled from the specification, as marked in their doc
comments.

Machine integers are modelled as `Nat` with an explicit `% 2 ^ 32` where
uint32 wraparound matters.  Bytes (`char` viewed as a byte, as on the
unsigned-`char` embedded targets this library comes from) are `Nat` values
below 256.
-/

namespace Ulog

/-! ### Severity levels (`ulog_level_t` in ulog.h) -/

def ULOG_NONE : Nat := 0
def ULOG_ERROR : Nat := 1
def ULOG_WARN : Nat := 2
def ULOG_INFO : Nat := 3
def ULOG_DEBUG : Nat := 4
def ULOG_VERBOSE : Nat := 5

/-- `CONFIG_LOG_DEFAULT_LEVEL` from ulog_cfg.h: `ULOG_VERBOSE`. -/
def CONFIG_LOG_DEFAULT_LEVEL : Nat := ULOG_VERBOSE

/-! ### Level registry

Modelled from the spec: the registry implementation lives in `ulog.c`,
which is not in the tree (only `ulog_level_set` / `ulog_level_get`
declarations in ulog.h).  Per the spec, the registry is an ordered
sequence of `(tag, threshold)` entries, at most one per tag; `get`
returns the tag's explicit threshold if present, else the wildcard
(`"*"`) default, else the compile-time default; `set` updates in place
or appends. -/

structure LevelRegistry where
  entries : List (String × Nat)
deriving DecidableEq, Repr

/-- Modelled from the spec: `ulog_level_get` (missing `ulog.c`) — explicit
entry, else wildcard entry, else compile-time default. -/
def ulog_level_get (r : LevelRegistry) (tag : String) : Nat :=
  match r.entries.find? (fun e => e.1 = tag) with
  | some e => e.2
  | none =>
    match r.entries.find? (fun e => e.1 = "*") with
    | some w => w.2
    | none => CONFIG_LOG_DEFAULT_LEVEL

/-- Modelled from the spec: `ulog_level_set` (missing `ulog.c`) — if the
tag already has an entry, update it in place; otherwise append a fresh
entry. -/
def ulog_level_set (r : LevelRegistry) (tag : String) (level : Nat) : LevelRegistry :=
  if r.entries.any (fun e => e.1 = tag) then
    ⟨r.entries.map (fun e => if e.1 = tag then (tag, level) else e)⟩
  else
    ⟨r.entries ++ [(tag, level)]⟩

/-! ### Dispatch gate -/

/-- Observable outcome of one dispatch-gate call: whether the level
registry was consulted, and whether the sink was invoked. -/
structure DispatchResult where
  registryLookup : Bool
  sinkInvoked : Bool
deriving DecidableEq, Repr

/-- Modelled from the spec: `ulog_write` (missing `ulog.c`) — computes the
effective threshold via the level registry and forwards to the sink iff
the requested level does not exceed it. -/
def ulog_write (r : LevelRegistry) (level : Nat) (tag : String) : DispatchResult :=
  { registryLookup := true
    sinkInvoked := decide (level ≤ ulog_level_get r tag) }

/-- `ULOG_LEVEL_LOCAL` from ulog.h:
`if ( LOG_LOCAL_LEVEL >= level ) ULOG_LEVEL(level, tag, format, ...)`;
the compile-time ceiling check short-circuits before `ulog_write` runs. -/
def ULOG_LEVEL_LOCAL (ceiling : Nat) (r : LevelRegistry) (level : Nat)
    (tag : String) : DispatchResult :=
  if level ≤ ceiling then ulog_write r level tag
  else { registryLookup := false, sinkInvoked := false }

/-! ### Buffer dump formatters (ulog_buffers.c)

The three `*_internal` functions process the buffer in a do-while loop,
16 bytes (`BYTES_PER_LINE`) per iteration, issuing one `ULOG_LEVEL` call
per iteration; `buff_len == 0` returns before the loop.  On this build
`uptr_byte_accessible` is constantly true, so the staging copy is never
taken and each line renders the bytes of its chunk directly. -/

def BYTES_PER_LINE : Nat := 16

/-- The successive chunks taken by the do-while loop: `bytes_cur_line =
min buff_len BYTES_PER_LINE` bytes per iteration until the buffer is
exhausted; an empty buffer yields no iterations. -/
def chunksOf16 (bs : List Nat) : List (List Nat) :=
  if bs = [] then []
  else bs.take BYTES_PER_LINE :: chunksOf16 (bs.drop BYTES_PER_LINE)
termination_by bs.length
decreasing_by
  simp only [List.length_drop, BYTES_PER_LINE]
  rename_i h
  have : 0 < bs.length := List.length_pos.mpr h
  omega

/-- One lowercase hex digit, as produced by `%x`. -/
def hexDigit (n : Nat) : Char :=
  if n < 10 then Char.ofNat (48 + n) else Char.ofNat (87 + n)

/-- `sprintf(..., "%02x", b)` for a byte value `b < 256`: exactly two
lowercase hex digits. -/
def sprintf02x (b : Nat) : String :=
  String.mk [hexDigit (b / 16 % 16), hexDigit (b % 16)]

/-- One line of `ulog_buffer_hex_internal`: the loop writes `"%02x "` for
every byte of the chunk at offset `3*i`, so the line is their
concatenation. -/
def hexLine (chunk : List Nat) : String :=
  String.join (chunk.map (fun b => sprintf02x b ++ " "))

/-- `ulog_buffer_hex_internal`, as the list of lines it hands to
`ULOG_LEVEL` (one sink invocation each), in order. -/
def ulog_buffer_hex_internal (bs : List Nat) : List String :=
  (chunksOf16 bs).map hexLine

/-- One line of `ulog_buffer_char_internal`: the chunk's bytes emitted
verbatim as characters (`"%c"`), no escaping. -/
def charLine (chunk : List Nat) : String :=
  String.mk (chunk.map Char.ofNat)

/-- `ulog_buffer_char_internal`, as the list of lines it hands to
`ULOG_LEVEL`. -/
def ulog_buffer_char_internal (bs : List Nat) : List String :=
  (chunksOf16 bs).map charLine

/-- C `isprint` in the default locale: printable ASCII 0x20..0x7E. -/
def isprint (b : Nat) : Bool := 32 ≤ b && b ≤ 126

/-- One hex-byte slot of a hexdump line: `" %02x"` while `i <
bytes_cur_line`, `"   "` (three spaces) for the unfilled slots of a short
final chunk. -/
def hexdumpSlot (chunk : List Nat) (i : Nat) : String :=
  match chunk[i]? with
  | some b => " " ++ sprintf02x b
  | none => "   "

/-- The `|...|` margin of a hexdump line: each chunk byte as its
character if printable, else a dot. -/
def hexdumpMargin (chunk : List Nat) : String :=
  String.mk (chunk.map (fun b => if isprint b then Char.ofNat b else '.'))

/-- One line of `ulog_buffer_hexdump_internal`: `"%p "` with the current
chunk pointer (rendered by the caller-supplied `addr` string), then the
16 slots with an extra `" "` whenever `i & 7 == 0`, then `"  |"`, the
printable margin, and a closing `"|"`. -/
def hexdumpLine (addr : String) (chunk : List Nat) : String :=
  addr ++ " " ++
    String.join ((List.range BYTES_PER_LINE).map
      (fun i => (if i % 8 = 0 then " " else "") ++ hexdumpSlot chunk i)) ++
    "  |" ++ hexdumpMargin chunk ++ "|"

/-- `ulog_buffer_hexdump_internal`, as the list of lines it hands to
`ULOG_LEVEL`; the pointer printed on each line advances by
`bytes_cur_line` per iteration, rendered here through `showAddr`. -/
def ulog_buffer_hexdump_internal (showAddr : Nat → String) (addr : Nat)
    (bs : List Nat) : List String :=
  if bs = [] then []
  else hexdumpLine (showAddr addr) (bs.take BYTES_PER_LINE) ::
    ulog_buffer_hexdump_internal showAddr (addr + min bs.length BYTES_PER_LINE)
      (bs.drop BYTES_PER_LINE)
termination_by bs.length
decreasing_by
  simp only [List.length_drop, BYTES_PER_LINE]
  rename_i h
  have : 0 < bs.length := List.length_pos.mpr h
  omega

/-- The hexdump line as the spec describes it, for comparison with
`hexdumpLine`: pointer value, then the 16 hex-byte slots in two groups
of 8 with an extra separating space at the mid-point, unfilled trailing
slots rendered as three spaces, followed by the `|...|` margin. -/
def hexdumpLineSpec (addr : String) (chunk : List Nat) : String :=
  addr ++ "  " ++ String.join ((List.range 8).map (hexdumpSlot chunk)) ++
    " " ++ String.join ((List.range 8).map (fun i => hexdumpSlot chunk (8 + i))) ++
    "  |" ++ hexdumpMargin chunk ++ "|"

/-- A lowercase hexadecimal digit character: `0`-`9` or `a`-`f`. -/
def isLowerHexDigit (c : Char) : Bool :=
  ('0' ≤ c && c ≤ '9') || ('a' ≤ c && c ≤ 'f')

/-! ### Sink registry

Modelled from the spec: `ulog_set_vprintf` lives in the missing `ulog.c`;
ulog.h documents it as replacing the active output function and returning
the previous one.  The sink itself is an opaque value of type `σ`. -/

structure SinkRegistry (σ : Type) where
  current : σ
deriving DecidableEq, Repr

/-- Modelled from the spec: `ulog_set_vprintf` (missing `ulog.c`) —
replaces the active sink, returning the previously active one. -/
def ulog_set_vprintf {σ : Type} (s : SinkRegistry σ) (func : σ) :
    σ × SinkRegistry σ :=
  (s.current, ⟨func⟩)

/-! ### FreeRTOS platform shim (ulog_freertos.c)

State: whether `s_log_mutex` has been created, and whether the scheduler
has started (`xTaskGetSchedulerState() != taskSCHEDULER_NOT_STARTED`;
the transition is one-way and queried at call time).  Blocking behaviour
is reified: each operation reports the `xSemaphoreTake` / `xSemaphoreGive`
call it performs on the shared mutex, if any, with its tick budget. -/

/-- FreeRTOS `portMAX_DELAY` with 32-bit ticks: block indefinitely. -/
def portMAX_DELAY : Nat := 2 ^ 32 - 1

/-- `MAX_MUTEX_WAIT_TICKS` for a given `portTICK_PERIOD_MS`:
`(MAX_MUTEX_WAIT_MS + portTICK_PERIOD_MS - 1) / portTICK_PERIOD_MS` with
`MAX_MUTEX_WAIT_MS = 10`. -/
def MAX_MUTEX_WAIT_TICKS (portTICK_PERIOD_MS : Nat) : Nat :=
  (10 + portTICK_PERIOD_MS - 1) / portTICK_PERIOD_MS

structure ShimState where
  mutexCreated : Bool
  schedulerStarted : Bool
deriving DecidableEq, Repr

/-- `ulog_impl_lock` (ulog_freertos.c): lazily create the mutex, return
without taking it when the scheduler has not started, otherwise take it
with `portMAX_DELAY`.  The second component records the tick budget of
the `xSemaphoreTake` performed, `none` when no take happens. -/
def ulog_impl_lock (s : ShimState) : ShimState × Option Nat :=
  let s1 : ShimState := { s with mutexCreated := true }
  if !s.schedulerStarted then (s1, none)
  else (s1, some portMAX_DELAY)

/-- `ulog_impl_lock_timeout` (ulog_freertos.c): lazily create the mutex,
return `true` immediately pre-scheduler, otherwise take with
`MAX_MUTEX_WAIT_TICKS` and return whether it was acquired (`acquired` is
the oracle for the semaphore's answer).  Components: new state, returned
Bool, tick budget of the take if one happens. -/
def ulog_impl_lock_timeout (s : ShimState) (portTICK_PERIOD_MS : Nat)
    (acquired : Bool) : ShimState × Bool × Option Nat :=
  let s1 : ShimState := { s with mutexCreated := true }
  if !s.schedulerStarted then (s1, true, none)
  else (s1, acquired, some (MAX_MUTEX_WAIT_TICKS portTICK_PERIOD_MS))

/-- `ulog_impl_unlock` (ulog_freertos.c): returns without touching the
mutex pre-scheduler, otherwise gives it.  The Bool records whether
`xSemaphoreGive` was called. -/
def ulog_impl_unlock (s : ShimState) : ShimState × Bool :=
  if !s.schedulerStarted then (s, false) else (s, true)

/-! ### Timestamps -/

/-- `ulog_early_timestamp` — identical in ulog_freertos.c and
ulog_noos.c: `return 0;`. -/
def ulog_early_timestamp : Nat := 0

/-- `ulog_timestamp` in ulog_noos.c:
`__attribute__((alias("ulog_early_timestamp")))`. -/
def ulog_timestamp_noos : Nat := ulog_early_timestamp

/-- `ulog_timestamp` in ulog_freertos.c.  Arguments: scheduler state, the
latched `base` (static, uint32), whether this call runs on core 0, the
FreeRTOS tick counter value `tick` (uint32, already wrapped), and
`configTICK_RATE_HZ`.  Returns the new latched base and the uint32
result `base + tick_count * (1000 / configTICK_RATE_HZ)`. -/
def ulog_timestamp_freertos (schedulerStarted : Bool) (base : Nat)
    (core0 : Bool) (tick : Nat) (configTICK_RATE_HZ : Nat) : Nat × Nat :=
  if !schedulerStarted then (base, ulog_early_timestamp)
  else
    let base1 := if base = 0 && core0 then ulog_early_timestamp else base
    (base1, (base1 + tick % 2 ^ 32 * (1000 / configTICK_RATE_HZ)) % 2 ^ 32)

/-! ## Helper lemmas -/

/-- Unfolding `chunksOf16` on the empty buffer. -/
theorem chunksOf16_nil : chunksOf16 [] = [] := by
  rw [chunksOf16]
  simp

/-- Updating-in-place rewrites the first (hence every) entry carrying the
tag, so a subsequent lookup of that tag finds the new value. -/
theorem find?_map_update (l : List (String × Nat)) (tg : String) (L : Nat)
    (h : l.any (fun e => e.1 = tg) = true) :
    (l.map (fun e => if e.1 = tg then (tg, L) else e)).find?
      (fun e => e.1 = tg) = some (tg, L) := by
  induction l with
  | nil => simp at h
  | cons e l ih =>
    by_cases he : e.1 = tg
    · simp [List.find?_cons, he]
    · simp only [List.any_cons] at h
      simp only [he, decide_eq_true_eq, false_or] at h
      simp [List.find?_cons, he, ih h]

/-- Updating-in-place for tag `tg` leaves lookups of an absent other tag
`t` unanswered. -/
theorem find?_map_update_other (l : List (String × Nat)) (tg t : String)
    (L : Nat) (hne : tg ≠ t) (hno : ∀ e ∈ l, e.1 ≠ t) :
    (l.map (fun e => if e.1 = tg then (tg, L) else e)).find?
      (fun e => e.1 = t) = none := by
  rw [List.find?_eq_none]
  intro x hx
  obtain ⟨e, he, rfl⟩ := List.mem_map.mp hx
  by_cases h : e.1 = tg <;> simp [h, hne, hno e he]

/-- The hexdump slot sequence over `0 ≤ i < 16`, with its extra space at
`i = 0` and `i = 8`, splits into two 8-slot groups each led by one
space. -/
theorem join_range16_split (f : Nat → String) :
    String.join ((List.range 16).map
      (fun i => (if i % 8 = 0 then " " else "") ++ f i)) =
    " " ++ String.join ((List.range 8).map f) ++
    (" " ++ String.join ((List.range 8).map (fun i => f (8 + i)))) := by
  have h16 : List.range 16 = [0, 1, 2, 3, 4, 5, 6, 7, 8, 9, 10, 11, 12,
    13, 14, 15] := by rfl
  have h8 : List.range 8 = [0, 1, 2, 3, 4, 5, 6, 7] := by rfl
  rw [h16, h8]
  apply String.ext
  simp [String.join, String.data_append]

/-! ## Claims -/

/-- C1: a log call at level `L` with tag `t` reaches the sink iff
`L ≤ min(compiled ceiling, effective threshold of t)`; when `L` exceeds
the ceiling the call short-circuits before any registry lookup, and when
`L` passes the ceiling but exceeds the tag's threshold the call performs
the lookup yet invokes no sink. -/
theorem dispatch_sink_iff_le_min (ceiling : Nat) (r : LevelRegistry)
    (level : Nat) (tag : String) :
    ((ULOG_LEVEL_LOCAL ceiling r level tag).sinkInvoked = true ↔
      level ≤ min ceiling (ulog_level_get r tag)) ∧
    (ceiling < level →
      ULOG_LEVEL_LOCAL ceiling r level tag =
        { registryLookup := false, sinkInvoked := false }) ∧
    (level ≤ ceiling → ulog_level_get r tag < level →
      ULOG_LEVEL_LOCAL ceiling r level tag =
        { registryLookup := true, sinkInvoked := false }) := by
  unfold ULOG_LEVEL_LOCAL ulog_write
  refine ⟨?_, ?_, ?_⟩
  · split <;> simp <;> omega
  · intro h
    rw [if_neg (by omega)]
  · intro h1 h2
    rw [if_pos h1]
    simp only [DispatchResult.mk.injEq, decide_eq_false_iff_not]
    exact ⟨trivial, by omega⟩

/-- Witness for C1: with ceiling `ULOG_INFO` a `ULOG_VERBOSE` call is
dropped before the registry lookup; with ceiling `ULOG_VERBOSE` and a
tag threshold of `ULOG_INFO` a `ULOG_DEBUG` call does the lookup but
does not reach the sink. -/
theorem dispatch_sink_iff_le_min_witness :
    ULOG_LEVEL_LOCAL ULOG_INFO ⟨[("main", ULOG_VERBOSE)]⟩ ULOG_VERBOSE
      "main" = { registryLookup := false, sinkInvoked := false } ∧
    ULOG_LEVEL_LOCAL ULOG_VERBOSE ⟨[("main", ULOG_INFO)]⟩ ULOG_DEBUG
      "main" = { registryLookup := true, sinkInvoked := false } :=
  ⟨(dispatch_sink_iff_le_min ULOG_INFO ⟨[("main", ULOG_VERBOSE)]⟩
      ULOG_VERBOSE "main").2.1 (by decide),
    (dispatch_sink_iff_le_min ULOG_VERBOSE ⟨[("main", ULOG_INFO)]⟩
      ULOG_DEBUG "main").2.2 (by decide) (by decide)⟩

/-- C2: each of the three buffer formatters emits zero lines for an empty
buffer, and for a 40-byte buffer emits exactly 3 lines whose chunks
cover 16, 16 and 8 bytes. -/
theorem buffer_formatters_chunk_lines (bs : List Nat)
    (showAddr : Nat → String) (a : Nat) :
    (bs = [] → ulog_buffer_hex_internal bs = [] ∧
      ulog_buffer_char_internal bs = [] ∧
      ulog_buffer_hexdump_internal showAddr a bs = []) ∧
    (bs.length = 40 →
      (ulog_buffer_hex_internal bs).length = 3 ∧
      (ulog_buffer_char_internal bs).length = 3 ∧
      (ulog_buffer_hexdump_internal showAddr a bs).length = 3 ∧
      (chunksOf16 bs).map List.length = [16, 16, 8]) := by
  constructor
  · rintro rfl
    rw [ulog_buffer_hexdump_internal]
    simp [ulog_buffer_hex_internal, ulog_buffer_char_internal, chunksOf16]
  · intro h40
    have hne : bs ≠ [] := by intro h; subst h; simp at h40
    have hl1 : (bs.drop BYTES_PER_LINE).length = 24 := by
      simp [h40, BYTES_PER_LINE]
    have hne1 : bs.drop BYTES_PER_LINE ≠ [] :=
      List.length_pos.mp (by omega)
    have hl2 : ((bs.drop BYTES_PER_LINE).drop BYTES_PER_LINE).length = 8 := by
      simp [BYTES_PER_LINE]
      omega
    have hne2 : (bs.drop BYTES_PER_LINE).drop BYTES_PER_LINE ≠ [] :=
      List.length_pos.mp (by omega)
    have hl3 : (((bs.drop BYTES_PER_LINE).drop BYTES_PER_LINE).drop
        BYTES_PER_LINE).length = 0 := by
      simp [BYTES_PER_LINE]
      omega
    have he3 : ((bs.drop BYTES_PER_LINE).drop BYTES_PER_LINE).drop
        BYTES_PER_LINE = [] := by
      rwa [List.length_eq_zero] at hl3
    have hch : (chunksOf16 bs).map List.length = [16, 16, 8] := by
      rw [chunksOf16, if_neg hne, chunksOf16, if_neg hne1, chunksOf16,
        if_neg hne2, he3, chunksOf16_nil]
      simp [BYTES_PER_LINE, h40, hl1, hl2]
    have hlen : (chunksOf16 bs).length = 3 := by
      have := congrArg List.length hch
      simpa using this
    have hdlen : (ulog_buffer_hexdump_internal showAddr a bs).length = 3 := by
      rw [ulog_buffer_hexdump_internal, if_neg hne,
        ulog_buffer_hexdump_internal, if_neg hne1,
        ulog_buffer_hexdump_internal, if_neg hne2, he3,
        ulog_buffer_hexdump_internal]
      simp
    exact ⟨by simp [ulog_buffer_hex_internal, hlen],
      by simp [ulog_buffer_char_internal, hlen], hdlen, hch⟩

/-- Witness for C2: a concrete 40-byte buffer yields 3 hex lines and
chunks of 16, 16 and 8 bytes. -/
theorem buffer_formatters_chunk_lines_witness :
    (ulog_buffer_hex_internal (List.replicate 40 0)).length = 3 ∧
    (chunksOf16 (List.replicate 40 0)).map List.length = [16, 16, 8] :=
  ⟨((buffer_formatters_chunk_lines (List.replicate 40 0)
      (fun _ => "") 0).2 (by simp)).1,
    ((buffer_formatters_chunk_lines (List.replicate 40 0)
      (fun _ => "") 0).2 (by simp)).2.2.2⟩

set_option maxRecDepth 4096 in
set_option maxHeartbeats 1000000 in
/-- C3: the hex renderer turns the bytes `[0x00, 0xFF, 0x41]` into the
single line `"00 ff 41 "`, and every byte below 256 renders as exactly
two lowercase hexadecimal digits. -/
theorem hex_renderer_two_digit_lowercase :
    hexLine [0x00, 0xFF, 0x41] = "00 ff 41 " ∧
    ∀ b < 256, (sprintf02x b).length = 2 ∧
      ∀ c ∈ (sprintf02x b).data, isLowerHexDigit c = true := by
  refine ⟨by decide, ?_⟩
  decide

/-- Witness for C3: the byte `0xFF` renders as two lowercase hex
digits. -/
theorem hex_renderer_two_digit_lowercase_witness :
    (sprintf02x 255).length = 2 ∧
    ∀ c ∈ (sprintf02x 255).data, isLowerHexDigit c = true :=
  hex_renderer_two_digit_lowercase.2 255 (by decide)

/-- C4: every hexdump line decomposes as the spec describes — pointer
value, 16 hex-byte slots in two groups of 8 with the extra space at the
mid-point and three-space unfilled slots, then the printable `|...|`
margin — and for a 16-byte chunk of `0x41` bytes the line ends with the
literal substring `|AAAAAAAAAAAAAAAA|`. -/
theorem hexdump_line_structure (addr : String) (chunk : List Nat) :
    hexdumpLine addr chunk = hexdumpLineSpec addr chunk ∧
    ∃ pre : String,
      hexdumpLine addr (List.replicate 16 65) = pre ++ "|AAAAAAAAAAAAAAAA|" := by
  constructor
  · rw [hexdumpLine, hexdumpLineSpec, BYTES_PER_LINE, join_range16_split]
    apply String.ext
    simp [String.data_append]
  · refine ⟨addr ++ " " ++
      String.join ((List.range BYTES_PER_LINE).map
        (fun i => (if i % 8 = 0 then " " else "") ++
          hexdumpSlot (List.replicate 16 65) i)) ++ "  ", ?_⟩
    rw [hexdumpLine]
    have hm : hexdumpMargin (List.replicate 16 65) = "AAAAAAAAAAAAAAAA" := by
      decide
    rw [hm]
    apply String.ext
    simp [String.data_append]

/-- C5: a tag with no explicit registry entry resolves to the wildcard
entry's value when one exists and to the compile-time default otherwise,
and setting the wildcard immediately retargets every such tag. -/
theorem level_get_wildcard_fallback (r : LevelRegistry) (t : String)
    (L : Nat) (hno : ∀ e ∈ r.entries, e.1 ≠ t) :
    (∀ w ∈ r.entries.find? (fun e => e.1 = "*"), ulog_level_get r t = w.2) ∧
    (r.entries.find? (fun e => e.1 = "*") = none →
      ulog_level_get r t = CONFIG_LOG_DEFAULT_LEVEL) ∧
    ulog_level_get (ulog_level_set r "*" L) t = L := by
  have ht : r.entries.find? (fun e => e.1 = t) = none := by
    rw [List.find?_eq_none]
    intro x hx
    simp [hno x hx]
  refine ⟨?_, ?_, ?_⟩
  · intro w hw
    simp only [Option.mem_def] at hw
    rw [ulog_level_get, ht, hw]
  · intro hw
    rw [ulog_level_get, ht, hw]
  · rw [ulog_level_set]
    by_cases hstar : r.entries.any (fun e => e.1 = "*") = true
    · rw [if_pos hstar, ulog_level_get]
      by_cases hts : t = "*"
      · subst hts
        rw [find?_map_update _ _ _ hstar]
      · rw [find?_map_update_other _ _ _ _ (fun h => hts h.symm) hno,
          find?_map_update _ _ _ hstar]
    · rw [if_neg hstar, ulog_level_get]
      have hstar1 : r.entries.find? (fun e => e.1 = "*") = none := by
        rw [List.find?_eq_none]
        intro x hx hpx
        exact hstar (List.any_eq_true.mpr ⟨x, hx, hpx⟩)
      have h2 : (r.entries ++ [("*", L)]).find? (fun e => e.1 = "*") =
          some ("*", L) := by
        rw [List.find?_append, hstar1]
        simp
      by_cases hts : t = "*"
      · subst hts
        rw [h2]
      · have h1 : (r.entries ++ [("*", L)]).find? (fun e => e.1 = t) =
            none := by
          rw [List.find?_append, ht]
          simp
          exact fun hh => hts hh.symm
        rw [h1, h2]

/-- Witness for C5: with only a `"wifi"` entry in the registry, setting
the wildcard to `ULOG_DEBUG` makes the unlisted tag `"bt"` resolve to
`ULOG_DEBUG`. -/
theorem level_get_wildcard_fallback_witness :
    ulog_level_get (ulog_level_set ⟨[("wifi", 2)]⟩ "*" ULOG_DEBUG) "bt" =
      ULOG_DEBUG :=
  (level_get_wildcard_fallback ⟨[("wifi", 2)]⟩ "bt" ULOG_DEBUG
    (by decide)).2.2

/-- C6: after `set(t, L)`, `get(t) = L`; repeating the identical set
leaves the registry unchanged; and a registry with at most one entry per
tag keeps that invariant across `set` (update in place, never a
duplicate). -/
theorem level_set_get_update_in_place (r : LevelRegistry) (t : String)
    (L : Nat) :
    ulog_level_get (ulog_level_set r t L) t = L ∧
    ulog_level_set (ulog_level_set r t L) t L = ulog_level_set r t L ∧
    (∀ s, r.entries.countP (fun e => e.1 = s) ≤ 1 →
      (ulog_level_set r t L).entries.countP (fun e => e.1 = s) ≤ 1) := by
  have hf : ∀ e : String × Nat,
      (if (if e.1 = t then (t, L) else e).1 = t then (t, L)
        else (if e.1 = t then (t, L) else e)) =
      (if e.1 = t then (t, L) else e) := by
    intro e
    by_cases h : e.1 = t <;> simp [h]
  refine ⟨?_, ?_, ?_⟩
  · by_cases hany : r.entries.any (fun e => e.1 = t) = true
    · rw [ulog_level_set, if_pos hany, ulog_level_get]
      rw [show (⟨r.entries.map fun e => if e.1 = t then (t, L) else e⟩ :
        LevelRegistry).entries = r.entries.map
          (fun e => if e.1 = t then (t, L) else e) from rfl]
      rw [find?_map_update _ _ _ hany]
    · rw [ulog_level_set, if_neg hany, ulog_level_get]
      have h1 : (r.entries ++ [(t, L)]).find? (fun e => e.1 = t) =
          some (t, L) := by
        rw [List.find?_append]
        have h0 : r.entries.find? (fun e => e.1 = t) = none := by
          rw [List.find?_eq_none]
          intro x hx hpx
          exact hany (List.any_eq_true.mpr ⟨x, hx, hpx⟩)
        rw [h0]
        simp
      rw [h1]
  · by_cases hany : r.entries.any (fun e => e.1 = t) = true
    · obtain ⟨w, hw, hwp⟩ := List.any_eq_true.mp hany
      have hin : ulog_level_set r t L =
          ⟨r.entries.map (fun e => if e.1 = t then (t, L) else e)⟩ := by
        rw [ulog_level_set, if_pos hany]
      rw [hin, ulog_level_set]
      have hany1 : (r.entries.map
          (fun e => if e.1 = t then (t, L) else e)).any
            (fun e => e.1 = t) = true := by
        refine List.any_eq_true.mpr ⟨(t, L), ?_, by simp⟩
        refine List.mem_map.mpr ⟨w, hw, ?_⟩
        simp at hwp
        simp [hwp]
      rw [if_pos hany1]
      congr 1
      rw [List.map_map]
      exact List.map_congr_left (fun e _ => hf e)
    · have hin : ulog_level_set r t L = ⟨r.entries ++ [(t, L)]⟩ := by
        rw [ulog_level_set, if_neg hany]
      rw [hin, ulog_level_set]
      have hany1 : ((r.entries ++ [(t, L)]).any (fun e => e.1 = t)) = true :=
        List.any_eq_true.mpr ⟨(t, L), by simp, by simp⟩
      rw [if_pos hany1]
      congr 1
      rw [List.map_append]
      have h2 : r.entries.map (fun e => if e.1 = t then (t, L) else e) =
          r.entries := by
        have hid : ∀ e ∈ r.entries, (if e.1 = t then (t, L) else e) =
            id e := by
          intro e he
          have : ¬ (e.1 = t) := by
            intro hp
            exact hany (List.any_eq_true.mpr ⟨e, he, by simp [hp]⟩)
          simp [this]
        rw [List.map_congr_left hid, List.map_id]
      rw [h2]
      simp
  · intro s hs
    by_cases hany : r.entries.any (fun e => e.1 = t) = true
    · rw [ulog_level_set, if_pos hany]
      have hcnt : (r.entries.map
          (fun e => if e.1 = t then (t, L) else e)).countP
            (fun e => e.1 = s) = r.entries.countP (fun e => e.1 = s) := by
        rw [List.countP_map]
        refine List.countP_congr ?_
        intro e _
        by_cases h : e.1 = t <;> simp [Function.comp, h]
      rw [show (⟨r.entries.map fun e => if e.1 = t then (t, L) else e⟩ :
        LevelRegistry).entries = r.entries.map
          (fun e => if e.1 = t then (t, L) else e) from rfl, hcnt]
      exact hs
    · rw [ulog_level_set, if_neg hany]
      rw [show (⟨r.entries ++ [(t, L)]⟩ : LevelRegistry).entries =
        r.entries ++ [(t, L)] from rfl]
      rw [List.countP_append]
      by_cases hts : s = t
      · subst hts
        have h0 : r.entries.countP (fun e => e.1 = s) = 0 := by
          rw [List.countP_eq_zero]
          intro e he hpe
          exact hany (List.any_eq_true.mpr ⟨e, he, hpe⟩)
        simp [h0]
      · have h1 : List.countP (fun e => decide (e.1 = s)) [(t, L)] = 0 := by
          have hts1 : ¬ t = s := fun h => hts h.symm
          simp [hts1]
        rw [h1]
        simpa using hs

/-- Witness for C6: set-then-get on a concrete registry, and the
one-entry-per-tag bound holds after re-setting `"wifi"`. -/
theorem level_set_get_update_in_place_witness :
    ulog_level_get (ulog_level_set ⟨[("wifi", 2)]⟩ "wifi" ULOG_ERROR)
      "wifi" = ULOG_ERROR ∧
    (ulog_level_set ⟨[("wifi", 2)]⟩ "wifi" ULOG_ERROR).entries.countP
      (fun e => e.1 = "wifi") ≤ 1 :=
  ⟨(level_set_get_update_in_place ⟨[("wifi", 2)]⟩ "wifi" ULOG_ERROR).1,
    (level_set_get_update_in_place ⟨[("wifi", 2)]⟩ "wifi" ULOG_ERROR).2.2
      "wifi" (by decide)⟩

/-- C7: `ulog_set_vprintf` returns the sink that was active before the
call, and swapping the returned sink back in restores the registry to
its initial state. -/
theorem set_vprintf_returns_old_roundtrip {σ : Type} (s : SinkRegistry σ)
    (func : σ) :
    (ulog_set_vprintf s func).1 = s.current ∧
    (ulog_set_vprintf (ulog_set_vprintf s func).2
      (ulog_set_vprintf s func).1).2 = s :=
  ⟨rfl, rfl⟩

/-- C8: pre-scheduler, `ulog_impl_lock` performs no semaphore take,
`ulog_impl_lock_timeout` returns true with no take, and
`ulog_impl_unlock` gives nothing; scheduler-active, the blocking lock
takes the shared mutex with `portMAX_DELAY`; both lock entry points
create the mutex lazily on their first call in either state. -/
theorem freertos_lock_pre_scheduler_noop (s : ShimState) (ptp : Nat)
    (acquired : Bool) :
    (s.schedulerStarted = false →
      (ulog_impl_lock s).2 = none ∧
      (ulog_impl_lock_timeout s ptp acquired).2.1 = true ∧
      (ulog_impl_lock_timeout s ptp acquired).2.2 = none ∧
      (ulog_impl_unlock s).2 = false) ∧
    (s.schedulerStarted = true →
      (ulog_impl_lock s).2 = some portMAX_DELAY ∧
      (ulog_impl_lock_timeout s ptp acquired).2.1 = acquired ∧
      (ulog_impl_lock_timeout s ptp acquired).2.2 =
        some (MAX_MUTEX_WAIT_TICKS ptp)) ∧
    (ulog_impl_lock s).1.mutexCreated = true ∧
    (ulog_impl_lock_timeout s ptp acquired).1.mutexCreated = true := by
  obtain ⟨mc, st⟩ := s
  cases st <;>
    simp [ulog_impl_lock, ulog_impl_lock_timeout, ulog_impl_unlock]

/-- Witness for C8: from a fresh pre-scheduler state the lock takes
nothing yet creates the mutex, and from a scheduler-active state it
blocks with `portMAX_DELAY`. -/
theorem freertos_lock_pre_scheduler_noop_witness :
    ((ulog_impl_lock ⟨false, false⟩).2 = none ∧
      (ulog_impl_lock_timeout ⟨false, false⟩ 1 false).2.1 = true ∧
      (ulog_impl_lock_timeout ⟨false, false⟩ 1 false).2.2 = none ∧
      (ulog_impl_unlock ⟨false, false⟩).2 = false) ∧
    (ulog_impl_lock ⟨false, true⟩).2 = some portMAX_DELAY ∧
    (ulog_impl_lock ⟨false, false⟩).1.mutexCreated = true :=
  ⟨(freertos_lock_pre_scheduler_noop ⟨false, false⟩ 1 false).1 rfl,
    ((freertos_lock_pre_scheduler_noop ⟨false, true⟩ 1 false).2.1 rfl).1,
    (freertos_lock_pre_scheduler_noop ⟨false, false⟩ 1 false).2.2.1⟩

/-- C9 counterexample: the scheduler-active timestamp is a uint32 sum
`base + ticks * (1000 / configTICK_RATE_HZ)`, so it wraps: at a tick
rate of 1000 Hz, one tick after tick `2^32 - 1` the returned millisecond
value drops from `2^32 - 1` to `0`, refuting unconditional
non-decrease — consistent with the source comment that millisecond
counter overflow is ignored. -/
theorem timestamp_monotonic_counterexample :
    2 ^ 32 - 1 ≤ 2 ^ 32 ∧
    (ulog_timestamp_freertos true 0 true (2 ^ 32 - 1) 1000).1 = 0 ∧
    (ulog_timestamp_freertos true 0 true (2 ^ 32) 1000).2 <
      (ulog_timestamp_freertos true 0 true (2 ^ 32 - 1) 1000).2 := by
  refine ⟨by omega, rfl, ?_⟩
  simp [ulog_timestamp_freertos, ulog_early_timestamp]

/-- C9 amended: on the scheduler-active path the latched base is
unchanged by a call, and between two successive calls whose tick counts
have not wrapped and whose millisecond sum stays below `2^32`, the
returned timestamp never decreases. -/
theorem timestamp_monotone_without_overflow (base tick1 tick2 hz : Nat)
    (core0 : Bool) (h12 : tick1 ≤ tick2) (hwrap : tick2 < 2 ^ 32)
    (hms : base + tick2 * (1000 / hz) < 2 ^ 32) :
    (ulog_timestamp_freertos true base core0 tick1 hz).1 = base ∧
    (ulog_timestamp_freertos true base core0 tick1 hz).2 ≤
      (ulog_timestamp_freertos true base core0 tick2 hz).2 := by
  have hb : (if base = 0 && core0 then ulog_early_timestamp else base) =
      base := by
    rcases eq_or_ne base 0 with h | h <;> cases core0 <;>
      simp [ulog_early_timestamp, h]
  constructor
  · simp only [ulog_timestamp_freertos, Bool.not_true, Bool.false_eq_true,
      if_false, hb]
  · have h1 : tick1 % 2 ^ 32 = tick1 := Nat.mod_eq_of_lt (by omega)
    have h2 : tick2 % 2 ^ 32 = tick2 := Nat.mod_eq_of_lt hwrap
    simp only [ulog_timestamp_freertos, Bool.not_true, if_neg, hb, h1, h2]
    have hle : base + tick1 * (1000 / hz) ≤ base + tick2 * (1000 / hz) := by
      have := Nat.mul_le_mul_right (1000 / hz) h12
      omega
    rw [Nat.mod_eq_of_lt (by omega), Nat.mod_eq_of_lt hms]
    exact hle

/-- Witness for C9 amended: two successive calls at 100 Hz ticks 100 and
200 with base 7 return non-decreasing values. -/
theorem timestamp_monotone_without_overflow_witness :
    (ulog_timestamp_freertos true 7 true 100 100).1 = 7 ∧
    (ulog_timestamp_freertos true 7 true 100 100).2 ≤
      (ulog_timestamp_freertos true 7 true 200 100).2 :=
  timestamp_monotone_without_overflow 7 100 200 100 true (by omega)
    (by norm_num) (by norm_num)

/-- C10: `ulog_early_timestamp` is the constant 0 in both platform
files; the no-OS `ulog_timestamp` alias therefore returns 0 on every
call; on the RTOS build every pre-scheduler timestamp is 0 and a latched
base of 0 stays 0 across any call. -/
theorem early_timestamp_always_zero :
    ulog_early_timestamp = 0 ∧ ulog_timestamp_noos = 0 ∧
    (∀ (base : Nat) (core0 : Bool) (tick hz : Nat),
      (ulog_timestamp_freertos false base core0 tick hz).2 = 0) ∧
    (∀ (sched core0 : Bool) (tick hz : Nat),
      (ulog_timestamp_freertos sched 0 core0 tick hz).1 = 0) := by
  refine ⟨rfl, rfl, fun base core0 tick hz => rfl,
    fun sched core0 tick hz => ?_⟩
  cases sched <;> simp [ulog_timestamp_freertos, ulog_early_timestamp]

end Ulog
